import Mathlib

/-!
Shallow embedding of `src/lisp_parser.py` (a minimal Lisp interpreter,
written in Python 2) and proofs about the specification's claims.

Modelling conventions:

* Python exceptions are modelled by the `Err` type; a computation that can
  raise returns `Except Err _`.
* Recursive procedures that are not structurally terminating in the source
  (the recursive-descent parser and the evaluator, whose user programs may
  diverge) take a `fuel : Nat` argument and return `Option (Except Err _)`;
  `none` means the fuel bound was exhausted (in Python the corresponding run
  simply recurses deeper).  All fuel recursion is structural on `Nat`, so
  concrete runs reduce by `rfl`.
* Python 2 semantics are modelled where they differ from Python 3: `/` on
  integers is floor division (the source uses `print` statements,
  `raw_input` and the built-in `reduce`, so it is Python 2).
* The source's `typed` also tries `float(token)` after `int(token)`.  A
  token is a `\w+` run or a single character from `()+-*/><=`, so the only
  tokens Python would classify as floats are exponent forms (`1e5`) and the
  words `inf`/`infinity`/`nan`; no input appearing in any claim contains
  such a token, and float atoms/values are not modelled (the claims'
  arithmetic is integral).
* Environments are mutable Python objects linked by `parent_environment`
  references; they are modelled as a store (`Store = List Frame`) indexed
  by allocation order and threaded through evaluation.
  `Environment.set_var` becomes a store update; dict insertion order is
  preserved by the association-list `frameSet`.
-/

/-- Python exceptions raised by the interpreter:
`undefinedVariable name` is `Exception("%s is not defined" % name)` from
`Environment.lookup`; `indexError` is Python's `IndexError` (list `pop`
or subscript out of range); `typeError` is Python's `TypeError` (calling
a non-callable, `reduce` of an empty sequence, bad operand types);
`zeroDivision` is `ZeroDivisionError`; `unsupportedExpression` is the
`SyntaxError("Unsupported Expression")` raised by `evaluate`'s final
`else` branch - that branch is reachable only for trees that are neither
string, number nor list, which the parser never produces, so no rule of
the embedded evaluator emits it. -/
inductive Err where
  | undefinedVariable (name : String)
  | indexError
  | typeError
  | zeroDivision
  | unsupportedExpression
deriving DecidableEq, Repr

/-- Expression trees produced by the parser: a Python `int`, a Python `str`
(symbol), or a Python `list` of sub-trees.  (The `float` case of `typed`
is unreachable for every token occurring in the claims; see the module
comment.) -/
inductive Exp where
  | int (n : Int)
  | sym (s : String)
  | list (elems : List Exp)
deriving Repr

/-- A character matched by `\w` in the tokenizing regex
`re.findall("\w+|[()+\-*/><=]", expression)` (Python 2 byte-string `re`
default: ASCII letters, digits, underscore). -/
def isWordChar (c : Char) : Bool :=
  c.isAlpha || c.isDigit || c = '_'

/-- The single-character alternatives of the tokenizing regex. -/
def specialChars : List Char :=
  ['(', ')', '+', '-', '*', '/', '>', '<', '=']

/-- Left-to-right scan equivalent to
`re.findall("\w+|[()+\-*/><=]", expression)`: at each position, a maximal
run of word characters is one token, else a single special character is
its own token, else the character is skipped.  `acc` accumulates the
current in-progress word run. -/
def tokenizeAux : List Char → List Char → List String
  | [], acc => if acc.isEmpty then [] else [String.mk acc]
  | c :: rest, acc =>
    if isWordChar c then
      tokenizeAux rest (acc ++ [c])
    else
      (if acc.isEmpty then [] else [String.mk acc]) ++
      (if specialChars.contains c then [String.mk [c]] else []) ++
      tokenizeAux rest []

/-- `re.findall("\w+|[()+\-*/><=]", expression)` from `parse_expression`. -/
def tokenize (s : String) : List String :=
  tokenizeAux s.toList []

/-- Decimal value of a digit list, most significant first. -/
def natOfDigitsAux : List Char → Nat → Nat
  | [], acc => acc
  | c :: cs, acc => natOfDigitsAux cs (acc * 10 + (c.toNat - '0'.toNat))

/-- `typed(token)`: try `int(token)` (tokens are `\w+` runs or single
special characters, so `int` succeeds exactly on all-digit tokens), else
return the token string as a symbol.  (The intermediate `float` attempt is
unreachable for the claims' tokens; see the module comment.) -/
def typed (token : String) : Exp :=
  let cs := token.toList
  if !cs.isEmpty && cs.all Char.isDigit then Exp.int (natOfDigitsAux cs 0)
  else Exp.sym token

/-- Propagation of Python exceptions and of fuel exhaustion: run the
continuation only on a successful result.  This is exactly how an
uncaught exception aborts the enclosing Python call. -/
def resBind {α β : Type} (r : Option (Except Err α))
    (k : α → Option (Except Err β)) : Option (Except Err β) :=
  match r with
  | Option.none => Option.none
  | some (.error e) => some (.error e)
  | some (.ok a) => k a

@[simp] theorem resBind_ok {α β : Type} (a : α)
    (k : α → Option (Except Err β)) : resBind (some (.ok a)) k = k a := rfl

@[simp] theorem resBind_error {α β : Type} (e : Err)
    (k : α → Option (Except Err β)) :
    resBind (some (.error e)) k = some (.error e) := rfl

@[simp] theorem resBind_fuel {α β : Type}
    (k : α → Option (Except Err β)) : resBind Option.none k = Option.none := rfl

/-- Parsing mode: `one` is `parse_tokens` (pop one token and dispatch),
`lst acc` is the state of `parse_list`'s `while` loop with the elements
accumulated so far.  The two mutually recursive source functions are fused
into one fuel-indexed function so that recursion is structural on `Nat`. -/
inductive PMode where
  | one
  | lst (acc : List Exp)

/-- Fused `parse_tokens`/`parse_list`.  `tokens.pop(0)` on an empty list
and `tokens[0]` on an empty list both raise `IndexError`.  Returns the
parsed tree together with the tokens left unconsumed (the source consumes
a shared mutable list destructively). -/
def parseF : Nat → PMode → List String → Option (Except Err (Exp × List String))
  | 0, _, _ => Option.none
  | _ + 1, .one, [] => some (.error .indexError)
  | fuel + 1, .one, t :: rest =>
    if t = "(" then parseF fuel (.lst []) rest
    else some (.ok (typed t, rest))
  | _ + 1, .lst _, [] => some (.error .indexError)
  | fuel + 1, .lst acc, t :: rest =>
    if t = ")" then some (.ok (.list acc, rest))
    else
      resBind (parseF fuel .one (t :: rest)) fun pr =>
        parseF fuel (.lst (acc ++ [pr.1])) pr.2

/-- `parse_expression(expression)`: tokenize, then parse one expression;
tokens remaining after the first complete expression are discarded.  The
fuel `length + 1` is enough for any token list, since every recursive
level consumes at least one token. -/
def parse_expression (s : String) : Option (Except Err Exp) :=
  let tokens := tokenize s
  resBind (parseF (tokens.length + 1) .one tokens) fun pr => some (.ok pr.1)

/-- The primitive procedures installed by `init_default_environment`. -/
inductive Prim where
  | add | sub | mul | div | first | rest | createList | lt | gt | eq
deriving DecidableEq, Repr

/-- Runtime values: Python `int`, `bool`, `list`, a `Procedure` object
(parameters expression, body expression, and the index of the captured
defining environment), a primitive procedure, or Python `None` (the result
of the `def`/`define` special form, whose branch in `evaluate` has no
`return`). -/
inductive Value where
  | int (n : Int)
  | bool (b : Bool)
  | list (elems : List Value)
  | closure (params : Exp) (body : Exp) (envId : Nat)
  | prim (p : Prim)
  | none
deriving Repr

/-- One `Environment` object: its `frame` dict (an association list with
unique keys, preserving Python dict insertion order) and its
`parent_environment` (the store index of the parent, or `Option.none` for
the root). -/
structure Frame where
  bindings : List (String × Value)
  parent : Option Nat
deriving Repr

/-- The heap of `Environment` objects, indexed by allocation order.
Python passes environments by reference; the model passes indices into
this store, which evaluation threads and extends. -/
abbrev Store := List Frame

/-- Python dict membership + subscript: first (unique) matching key. -/
def frameGet : List (String × Value) → String → Option Value
  | [], _ => Option.none
  | (k, w) :: rest, name => if k = name then some w else frameGet rest name

/-- Python dict assignment `self.frame[var_name] = value`: overwrite in
place if the key exists, else append (dict insertion order). -/
def frameSet : List (String × Value) → String → Value → List (String × Value)
  | [], name, v => [(name, v)]
  | (k, w) :: rest, name, v =>
    if k = name then (k, v) :: rest else (k, w) :: frameSet rest name v

/-- `Environment.lookup(var_name)`: search the local frame, else delegate
to the parent, else raise `Exception("%s is not defined" % var_name)`.
The fuel bounds the parent-chain walk (chains built by the interpreter
are acyclic, of length at most the store size); a dangling environment
index yields `Option.none` (unreachable for stores built by evaluation). -/
def lookup : Nat → Store → Nat → String → Option (Except Err Value)
  | 0, _, _, _ => Option.none
  | fuel + 1, store, envId, name =>
    match store[envId]? with
    | Option.none => Option.none
    | some fr =>
      match frameGet fr.bindings name with
      | some v => some (.ok v)
      | Option.none =>
        match fr.parent with
        | some p => lookup fuel store p name
        | Option.none => some (.error (.undefinedVariable name))

/-- `Environment.set_var(var_name, value)`: mutate the local frame of the
environment at index `envId`; no other environment is touched. -/
def setVar (store : Store) (envId : Nat) (name : String) (v : Value) : Store :=
  match store[envId]? with
  | Option.none => store
  | some fr => store.set envId ⟨frameSet fr.bindings name v, fr.parent⟩

/-- The environment indices `lookup` may consult when started at `envId`:
`envId` itself followed by the indices reachable through parent
references, fuel-bounded exactly like `lookup`. -/
def chainIds : Nat → Store → Nat → List Nat
  | 0, _, _ => []
  | fuel + 1, store, envId =>
    envId :: (match store[envId]? with
      | Option.none => []
      | some fr =>
        match fr.parent with
        | some p => chainIds fuel store p
        | Option.none => [])

/-- Decides that `name` is bound in no frame of the chain that starts at
`envId` and reaches a parentless root within `fuel` steps. -/
def unboundToRoot : Nat → Store → Nat → String → Bool
  | 0, _, _, _ => false
  | fuel + 1, store, envId, name =>
    match store[envId]? with
    | Option.none => false
    | some fr =>
      (frameGet fr.bindings name).isNone &&
      (match fr.parent with
       | some p => unboundToRoot fuel store p name
       | Option.none => true)

/-- Python numeric coercion for arithmetic/comparison: `bool` is an `int`
subtype (`True == 1`, `False == 0`). -/
def toNum : Value → Option Int
  | .int n => some n
  | .bool b => some (if b then 1 else 0)
  | _ => Option.none

/-- Python 2 `x + y` on the value types that arise: numeric addition, or
list concatenation; any other operand pair raises `TypeError`. -/
def pyAdd (a b : Value) : Except Err Value :=
  match toNum a, toNum b with
  | some x, some y => .ok (.int (x + y))
  | _, _ =>
    match a, b with
    | .list xs, .list ys => .ok (.list (xs ++ ys))
    | _, _ => .error .typeError

/-- Python 2 `x - y`: numeric only. -/
def pySub (a b : Value) : Except Err Value :=
  match toNum a, toNum b with
  | some x, some y => .ok (.int (x - y))
  | _, _ => .error .typeError

/-- Python `list * n` / `n * list`: `n` copies of the list (empty for
`n <= 0`). -/
def listRepeat (xs : List Value) (n : Int) : List Value :=
  (List.replicate n.toNat xs).flatten

/-- Python 2 `x * y`: numeric product, or sequence repetition when one
operand is a list and the other a number; else `TypeError`. -/
def pyMul (a b : Value) : Except Err Value :=
  match toNum a, toNum b with
  | some x, some y => .ok (.int (x * y))
  | _, _ =>
    match a, b with
    | .list xs, v =>
      match toNum v with
      | some n => .ok (.list (listRepeat xs n))
      | Option.none => .error .typeError
    | v, .list xs =>
      match toNum v with
      | some n => .ok (.list (listRepeat xs n))
      | Option.none => .error .typeError
    | _, _ => .error .typeError

/-- Python 2 `x / y` on integers: floor division (`7 / 2 == 3`,
`-7 / 2 == -4`), `ZeroDivisionError` on a zero divisor; non-numeric
operands raise `TypeError`.  `Int.fdiv` is Lean's floor division. -/
def pyDiv (a b : Value) : Except Err Value :=
  match toNum a, toNum b with
  | some x, some y =>
    if y = 0 then .error .zeroDivision else .ok (.int (Int.fdiv x y))
  | _, _ => .error .typeError

/-- `reduce(op, args)`: `TypeError` on an empty sequence, else left-fold
starting from the first element (a single argument is returned unchanged,
`op` never called). -/
def reduceOp (op : Value → Value → Except Err Value) :
    List Value → Except Err Value
  | [] => .error .typeError
  | x :: xs => xs.foldlM op x

/-- Python 2 `args[0] < args[1]` restricted to numbers.  (Python 2 also
orders values of different types by an arbitrary type-based rule; no
claim exercises `<` at all, so only the numeric case is modelled and any
other operand pair is mapped to `TypeError`.) -/
def pyLt (a b : Value) : Except Err Value :=
  match toNum a, toNum b with
  | some x, some y => .ok (.bool (decide (x < y)))
  | _, _ => .error .typeError

/-- Python 2 `args[0] > args[1]` restricted to numbers (see `pyLt`). -/
def pyGt (a b : Value) : Except Err Value :=
  match toNum a, toNum b with
  | some x, some y => .ok (.bool (decide (x > y)))
  | _, _ => .error .typeError

mutual
/-- Python `==` on values: numeric equality across `int`/`bool`
(`1 == True`), pointwise list equality, `None == None`, identical
primitives.  Two `Procedure` objects compare by object identity in
Python; distinct closure values are modelled as unequal (no claim
exercises `=` on closures). -/
def pyEqVal : Value → Value → Bool
  | .int x, .int y => x == y
  | .int x, .bool b => x == (if b then 1 else 0)
  | .bool b, .int y => (if b then (1 : Int) else 0) == y
  | .bool a, .bool b => a == b
  | .list xs, .list ys => pyEqList xs ys
  | .none, .none => true
  | .prim p, .prim q => p == q
  | _, _ => false

/-- Pointwise Python `==` on lists. -/
def pyEqList : List Value → List Value → Bool
  | [], [] => true
  | x :: xs, y :: ys => pyEqVal x y && pyEqList xs ys
  | _, _ => false
end

/-- Apply a primitive from `init_default_environment` to argument values:
`add`/`subtract`/`multiply`/`divide` are `reduce` left-folds; `first` is
`args[0]` of its single list argument (`IndexError` when empty,
`TypeError` on a non-list or wrong argument count); `rest` is `args[1:]`;
`create_list` collects its arguments; `less_than`/`greater_than`/`equals`
use `args[0]`/`args[1]` and ignore further arguments (`IndexError` when
fewer than two are supplied, since `args` is a tuple). -/
def applyPrim : Prim → List Value → Except Err Value
  | .add, args => reduceOp pyAdd args
  | .sub, args => reduceOp pySub args
  | .mul, args => reduceOp pyMul args
  | .div, args => reduceOp pyDiv args
  | .first, [.list []] => .error .indexError
  | .first, [.list (x :: _)] => .ok x
  | .first, _ => .error .typeError
  | .rest, [.list []] => .ok (.list [])
  | .rest, [.list (_ :: xs)] => .ok (.list xs)
  | .rest, _ => .error .typeError
  | .createList, args => .ok (.list args)
  | .lt, a :: b :: _ => pyLt a b
  | .lt, _ => .error .indexError
  | .gt, a :: b :: _ => pyGt a b
  | .gt, _ => .error .indexError
  | .eq, a :: b :: _ => .ok (.bool (pyEqVal a b))
  | .eq, _ => .error .indexError

/-- Python truthiness `bool(value)` as used by `if evaluate(predicate,
environment):` - zero numbers, `False`, the empty list and `None` are
falsy; everything else (including every `Procedure` and primitive) is
truthy. -/
def pyTruthy : Value → Bool
  | .int n => n != 0
  | .bool b => b
  | .list vs => !vs.isEmpty
  | .none => false
  | .closure _ _ _ => true
  | .prim _ => true

/-- `dict(zip(var_names, values))` from `Environment.__init__`: `zip`
truncates to the shorter list (mismatched parameter/argument counts are
silently truncated, not an error), and on duplicate keys the last pair
wins. -/
def dictOfPairs (pairs : List (String × Value)) : List (String × Value) :=
  pairs.foldl (fun f p => frameSet f p.1 p.2) []

/-- Parameter names over which `zip` iterates in `Environment.__init__`:
a list of symbols gives their names; a symbol gives its characters
(Python iterates a string character by character); an `int` is not
iterable (`TypeError`).  A parameter list containing a non-symbol element
is modelled as `TypeError` (in Python a number would become a non-string
dict key, unreachable by any symbol lookup; no claim exercises that). -/
def extractParamNames : List Exp → Except Err (List String)
  | [] => .ok []
  | .sym s :: rest => (extractParamNames rest).map (fun l => s :: l)
  | _ :: _ => .error .typeError

/-- See `extractParamNames`. -/
def extractParams : Exp → Except Err (List String)
  | .list es => extractParamNames es
  | .sym s => .ok (s.toList.map (fun c => String.mk [c]))
  | .int _ => .error .typeError

/-- Evaluation result: `Option.none` is fuel exhaustion, `some (.error e)`
a raised Python exception, `some (.ok (v, store))` a value together with
the updated environment store. -/
abbrev EvalRes := Option (Except Err (Value × Store))

/-- Evaluate a list of argument expressions left to right, threading the
store (`[evaluate(arg, environment) for arg in exptree[1:]]`). -/
def evalArgsWith (ev : Exp → Nat → Store → EvalRes) :
    List Exp → Nat → Store → Option (Except Err (List Value × Store))
  | [], _, store => some (.ok ([], store))
  | e :: es, envId, store =>
    resBind (ev e envId store) fun vs =>
      resBind (evalArgsWith ev es envId vs.2) fun rs =>
        some (.ok (vs.1 :: rs.1, rs.2))

/-- `Procedure.__call__(*args)`: allocate exactly one new `Environment`
whose frame is `dict(zip(self.parameters, args))` and whose parent is the
closure's captured `self.environment`, then evaluate the stored body
expression in that new environment. -/
def procCallWith (ev : Exp → Nat → Store → EvalRes) (params body : Exp)
    (defEnv : Nat) (args : List Value) (store : Store) : EvalRes :=
  match extractParams params with
  | .error e => some (.error e)
  | .ok names =>
    ev body store.length (store ++ [⟨dictOfPairs (names.zip args), some defEnv⟩])

/-- Call an operator value: a `Procedure` runs `Procedure.__call__`, a
primitive runs natively (no store change), anything else raises
`TypeError` (Python: object is not callable). -/
def applyCallable (ev : Exp → Nat → Store → EvalRes) (f : Value)
    (args : List Value) (store : Store) : EvalRes :=
  match f with
  | .closure params body defEnv => procCallWith ev params body defEnv args store
  | .prim p =>
    match applyPrim p args with
    | .error e => some (.error e)
    | .ok v => some (.ok (v, store))
  | _ => some (.error .typeError)

/-- The `def`/`define` special form: `var = exptree[1]`;
`val = evaluate(exptree[2], environment)`; `environment.set_var(var, val)`;
no `return`, so the result is `None`.  Fewer than two operands raise
`IndexError` before anything is evaluated; elements beyond `exptree[2]`
are ignored.  A non-symbol name is modelled as `TypeError` (see
`extractParamNames`). -/
def evalDefine (ev : Exp → Nat → Store → EvalRes) (rest : List Exp)
    (envId : Nat) (store : Store) : EvalRes :=
  match rest with
  | varExp :: valExp :: _ =>
    resBind (ev valExp envId store) fun vs =>
      match varExp with
      | .sym name => some (.ok (Value.none, setVar vs.2 envId name vs.1))
      | _ => some (.error .typeError)
  | _ => some (.error .indexError)

/-- The `if` special form: `exptree[1]`, `exptree[2]`, `exptree[3]` are
all indexed first (`IndexError` if any is missing, extra elements
ignored); then the predicate is evaluated, and exactly one of the two
branch expressions is evaluated, chosen by Python truthiness. -/
def evalIf (ev : Exp → Nat → Store → EvalRes) (rest : List Exp)
    (envId : Nat) (store : Store) : EvalRes :=
  match rest with
  | pred :: tclause :: fclause :: _ =>
    resBind (ev pred envId store) fun vs =>
      if pyTruthy vs.1 then ev tclause envId vs.2
      else ev fclause envId vs.2
  | _ => some (.error .indexError)

/-- The `fn`/`lambda` special form: build a `Procedure` capturing
`exptree[1]` (parameters, unevaluated), `exptree[2]` (body, unevaluated)
and the current environment by reference; extra elements ignored,
missing ones raise `IndexError`. -/
def evalFn (rest : List Exp) (envId : Nat) (store : Store) : EvalRes :=
  match rest with
  | params :: body :: _ => some (.ok (.closure params body envId, store))
  | _ => some (.error .indexError)

/-- Procedure application: evaluate `exptree[0]` to the operator value,
the remaining elements left to right to the argument values, then call. -/
def evalApply (ev : Exp → Nat → Store → EvalRes) (head : Exp)
    (argExps : List Exp) (envId : Nat) (store : Store) : EvalRes :=
  resBind (ev head envId store) fun fs =>
    resBind (evalArgsWith ev argExps envId fs.2) fun as =>
      applyCallable ev fs.1 as.1 as.2

/-- One dispatch step of `evaluate(exptree, environment)`, with `ev` the
evaluator used for sub-expressions.  Dispatch order follows the source: a
string is looked up; a number is self-evaluating; then `exptree[0]` is
compared against the special-form symbols - on the EMPTY list this very
subscript raises `IndexError` (the final `SyntaxError("Unsupported
Expression")` branch is reachable only for trees that are neither string,
number nor list, which the parser never produces). -/
def evalStep (ev : Exp → Nat → Store → EvalRes) (exp : Exp) (envId : Nat)
    (store : Store) : EvalRes :=
  match exp with
  | .sym s =>
    (match lookup (store.length + 1) store envId s with
     | Option.none => Option.none
     | some (.error e) => some (.error e)
     | some (.ok v) => some (.ok (v, store)))
  | .int n => some (.ok (.int n, store))
  | .list [] => some (.error .indexError)
  | .list (head :: rest) =>
    match head with
    | .sym s =>
      if s = "def" ∨ s = "define" then evalDefine ev rest envId store
      else if s = "if" then evalIf ev rest envId store
      else if s = "fn" ∨ s = "lambda" then evalFn rest envId store
      else evalApply ev (.sym s) rest envId store
    | _ => evalApply ev head rest envId store

/-- `evaluate(exptree, environment)`, fuel-indexed: each recursion level
of the Python function consumes one unit of fuel. -/
def evaluate : Nat → Exp → Nat → Store → EvalRes
  | 0 => fun _ _ _ => Option.none
  | fuel + 1 => evalStep (evaluate fuel)

/-- `init_default_environment()`: the root environment (no parent), with
the primitives and the boolean constants bound by twelve `set_var` calls
in source order. -/
def init_default_environment : Store :=
  [⟨[("+", .prim .add), ("-", .prim .sub), ("*", .prim .mul),
     ("/", .prim .div), ("first", .prim .first), ("rest", .prim .rest),
     ("list", .prim .createList), ("true", .bool true),
     ("false", .bool false), ("<", .prim .lt), (">", .prim .gt),
     ("=", .prim .eq)], Option.none⟩]

/-- Parse and evaluate one expression in a fresh default (global)
environment, returning the value (fuel 30 covers every program appearing
in the claims). -/
def evalInGlobal (s : String) : Option (Except Err Value) :=
  resBind (parse_expression s) fun exp =>
    resBind (evaluate 30 exp 0 init_default_environment) fun vs =>
      some (.ok vs.1)

/-- Parse a sequence of input lines (as the REPL would receive them). -/
def parseForms : List String → Option (Except Err (List Exp))
  | [] => some (.ok [])
  | s :: ss =>
    resBind (parse_expression s) fun exp =>
      resBind (parseForms ss) fun exps => some (.ok (exp :: exps))

/-- Evaluate a sequence of forms against one persistent environment store
(as the REPL does with its single global environment), returning the last
form's value. -/
def runForms (fuel : Nat) : List Exp → Nat → Store → Option (Except Err Value)
  | [], _, _ => some (.ok Value.none)
  | [e], envId, store =>
    resBind (evaluate fuel e envId store) fun vs => some (.ok vs.1)
  | e :: es, envId, store =>
    resBind (evaluate fuel e envId store) fun vs => runForms fuel es envId vs.2

/-- Run a list of source lines through the REPL's parse-then-evaluate
loop against a fresh global environment. -/
def runProgram (fuel : Nat) (srcs : List String) : Option (Except Err Value) :=
  resBind (parseForms srcs) fun exps =>
    runForms fuel exps 0 init_default_environment

/-! Sanity checks that the embedding computes by `rfl` on the claims'
concrete programs. -/

example : tokenize "(+ 2 3)" = ["(", "+", "2", "3", ")"] := by rfl
example : tokenize "-5" = ["-", "5"] := by rfl
example : parse_expression "5" = some (.ok (.int 5)) := by rfl
example : parse_expression "(+ 2 3)" =
    some (.ok (.list [.sym "+", .int 2, .int 3])) := by rfl
example : parse_expression ")" = some (.ok (.sym ")")) := by rfl
example : parse_expression "(" = some (.error .indexError) := by rfl
example : parse_expression "1 2" = some (.ok (.int 1)) := by rfl
example : evalInGlobal "(+ 1 2 3)" = some (.ok (.int 6)) := by rfl
example : evalInGlobal "(list 1 2 3)" =
    some (.ok (.list [.int 1, .int 2, .int 3])) := by rfl
example : evalInGlobal "(first (list 1 (+ 2 3) 9))" =
    some (.ok (.int 1)) := by rfl
example : evalInGlobal "(/ 7 2)" = some (.ok (.int 3)) := by rfl
example : evalInGlobal "(if (list) 1 2)" = some (.ok (.int 2)) := by rfl
example : evalInGlobal "()" = some (.error .indexError) := by rfl
example : runProgram 30 ["(def make (fn (x) (fn (y) (+ x y))))",
    "(def add5 (make 5))", "(def x 100)", "(add5 1)"] =
    some (.ok (.int 6)) := by rfl
example : evalInGlobal "(if 1 42 (undefinedvar))" =
    some (.ok (.int 42)) := by rfl
example : evalInGlobal "(if 0 (undefinedvar) 42)" =
    some (.ok (.int 42)) := by rfl
example : evalInGlobal "nope" =
    some (.error (.undefinedVariable "nope")) := by rfl

/-- Definitional unfolding of `evaluate` at positive fuel. -/
theorem evaluate_succ (fuel : Nat) :
    evaluate (fuel + 1) = evalStep (evaluate fuel) := rfl

/-- C1: evaluating the spec's sample programs in a fresh global
environment yields the spec's stated values - `(+ 1 2 3)` gives the
integer 6, `(list 1 2 3)` gives the list value `[1, 2, 3]`, and
`(first (list 1 (+ 2 3) 9))` gives the integer 1. -/
theorem C1_sample_evaluations :
    evalInGlobal "(+ 1 2 3)" = some (.ok (.int 6)) ∧
    evalInGlobal "(list 1 2 3)" =
      some (.ok (.list [.int 1, .int 2, .int 3])) ∧
    evalInGlobal "(first (list 1 (+ 2 3) 9))" = some (.ok (.int 1)) :=
  ⟨rfl, rfl, rfl⟩

/-- C2: parsing is deterministic (`parse_expression` is a pure function
of its input string) and produces exactly the spec's stated trees on the
three sample inputs. -/
theorem C2_parse_samples :
    parse_expression "(+ 2 3)" =
      some (.ok (.list [.sym "+", .int 2, .int 3])) ∧
    parse_expression "5" = some (.ok (.int 5)) ∧
    parse_expression "(first (list 1 (+ 2 3) 9))" =
      some (.ok (.list [.sym "first",
        .list [.sym "list", .int 1, .list [.sym "+", .int 2, .int 3],
          .int 9]])) :=
  ⟨rfl, rfl, rfl⟩

/-- C8 counterexample: `parse(")")` does NOT fail - it returns the value
`Symbol(")")`: `parse_tokens` pops the close-paren, it is not `(`, and
`typed` classifies it as a string atom.  This refutes the claim that a
leading unmatched close-paren is a fatal parse error. -/
theorem C8_counterexample :
    parse_expression ")" = some (.ok (.sym ")")) := rfl

/-- C8 (amended): an input whose first token is `)` is not a parse error;
`parse_tokens` pops the token, `typed` returns it as the symbol `")"`,
and the remaining tokens are left unconsumed.  (Unbalanced input in the
other direction, e.g. `"("`, does raise `IndexError`.) -/
theorem C8_close_paren_returns_symbol :
    (∀ (fuel : Nat) (toks : List String),
      parseF (fuel + 1) .one (")" :: toks) = some (.ok (.sym ")", toks))) ∧
    parse_expression ")" = some (.ok (.sym ")")) ∧
    parse_expression "(" = some (.error .indexError) :=
  ⟨fun _ _ => rfl, rfl, rfl⟩

/-- C9 counterexample: evaluating the empty list raises `IndexError`
(from the subscript `exptree[0]` in the `def`-dispatch test), not the
`SyntaxError("Unsupported Expression")` of the evaluator's final `else`
branch; the two exceptions are distinct. -/
theorem C9_counterexample :
    evalInGlobal "()" = some (.error .indexError) ∧
    Err.indexError ≠ Err.unsupportedExpression := ⟨rfl, by decide⟩

/-- C9 (amended): evaluating an empty-list tree fails fatally, but with
Python's `IndexError` raised by `exptree[0]`, in every environment and at
every fuel; the `UnsupportedExpression` (`SyntaxError`) branch fires only
for trees that are neither string, number nor list, which the parser
never produces. -/
theorem C9_empty_list_raises_index_error :
    ∀ (fuel envId : Nat) (store : Store),
      evaluate (fuel + 1) (.list []) envId store =
        some (.error .indexError) :=
  fun _ _ _ => rfl

/-- C4 counterexample: the predicate `(list)` evaluates to the empty list
value, which the claim's truthiness criterion ("any value not equal to
false/0") calls truthy, so the claim predicts the first branch (value 1);
the code's Python `bool([])` is falsy and the second branch's value 2 is
returned instead. -/
theorem C4_counterexample :
    evalInGlobal "(if (list) 1 2)" = some (.ok (.int 2)) ∧
    (some (Except.ok (Value.int 2)) : Option (Except Err Value)) ≠
      some (Except.ok (Value.int 1)) := by
  refine ⟨rfl, ?_⟩
  intro h
  have h2 : (2 : Int) = 1 := by
    injection h with h1
    injection h1 with h2
    injection h2
  omega

/-- C7 counterexample: `(/ 7 2)` evaluates to the integer 3 - Python 2
floor division - not the exact quotient (there is no value `v` with
`2 * v = 7` among integers; the exact quotient 3.5 is never produced). -/
theorem C7_counterexample :
    evalInGlobal "(/ 7 2)" = some (.ok (.int 3)) ∧
    (2 : Int) * 3 ≠ 7 := ⟨rfl, by decide⟩

/-- C4 (amended): for every list expression `(if p t f ...)`, evaluation
first evaluates the predicate; the branch is chosen by PYTHON truthiness
(`pyTruthy`: numbers are truthy iff non-zero, booleans are themselves,
list values are truthy iff non-empty, `None` is falsy, closures and
primitives are truthy) - not by "any value not equal to false/0", which
wrongly classifies the empty list; only the chosen branch is ever
evaluated, so an erroring expression in the untaken arm is never reached
(witnessed by the two concrete runs whose untaken arm would raise an
undefined-variable error). -/
theorem C4_if_python_truthiness :
    (∀ (fuel : Nat) (p t f : Exp) (extra : List Exp) (envId : Nat)
        (store store' : Store) (v : Value),
      evaluate fuel p envId store = some (.ok (v, store')) →
      evaluate (fuel + 1) (.list (.sym "if" :: p :: t :: f :: extra))
          envId store =
        (if pyTruthy v then evaluate fuel t envId store'
         else evaluate fuel f envId store')) ∧
    evalInGlobal "(if 1 42 (undefinedvar))" = some (.ok (.int 42)) ∧
    evalInGlobal "(if 0 (undefinedvar) 42)" = some (.ok (.int 42)) := by
  refine ⟨?_, rfl, rfl⟩
  intro fuel p t f extra envId store store' v h
  have e1 : evaluate (fuel + 1) (.list (.sym "if" :: p :: t :: f :: extra))
      envId store
      = evalIf (evaluate fuel) (p :: t :: f :: extra) envId store := rfl
  rw [e1]
  have e2 : evalIf (evaluate fuel) (p :: t :: f :: extra) envId store
      = resBind (evaluate fuel p envId store) fun vs =>
          if pyTruthy vs.1 then evaluate fuel t envId vs.2
          else evaluate fuel f envId vs.2 := rfl
  rw [e2, h, resBind_ok]

/-- C4 witness: a concrete instance of the amended `if` rule - predicate
value 0 is falsy, so `(if 0 5 6)` continues as the evaluation of `6`. -/
theorem C4_if_python_truthiness_witness :
    evaluate 2 (.list [.sym "if", .int 0, .int 5, .int 6]) 0
        init_default_environment
      = evaluate 1 (.int 6) 0 init_default_environment := by
  have h := C4_if_python_truthiness.1 1 (.int 0) (.int 5) (.int 6) [] 0
    init_default_environment init_default_environment (.int 0) rfl
  simpa [pyTruthy] using h

/-- Left-fold of Python 2 integer division over a list of non-zero
integer divisors. -/
theorem foldlM_pyDiv (x : Int) (ms : List Int) (h : ∀ m ∈ ms, m ≠ 0) :
    List.foldlM pyDiv (Value.int x) (ms.map Value.int) =
      .ok (.int (ms.foldl Int.fdiv x)) := by
  induction ms generalizing x with
  | nil => rfl
  | cons m ms ih =>
    have hm : m ≠ 0 := h m (List.mem_cons_self m ms)
    have htail : ∀ k ∈ ms, k ≠ 0 := fun k hk => h k (List.mem_cons_of_mem m hk)
    have hdiv : pyDiv (Value.int x) (Value.int m) =
        .ok (.int (Int.fdiv x m)) := by
      simp [pyDiv, toNum, hm]
    calc List.foldlM pyDiv (Value.int x) ((m :: ms).map Value.int)
        = pyDiv (Value.int x) (Value.int m) >>= fun s =>
            List.foldlM pyDiv s (ms.map Value.int) := by
          simp [List.foldlM]
      _ = List.foldlM pyDiv (Value.int (Int.fdiv x m)) (ms.map Value.int) := by
          rw [hdiv]; rfl
      _ = .ok (.int (ms.foldl Int.fdiv (Int.fdiv x m))) := ih (Int.fdiv x m) htail
      _ = .ok (.int ((m :: ms).foldl Int.fdiv x)) := rfl

/-- C7 (amended): the division primitive left-folds its integer arguments
with Python 2's `/`, which on integers is FLOOR division (`Int.fdiv`) -
the quotient is truncated toward negative infinity, not the exact
(float) quotient the claim states. -/
theorem C7_integer_division :
    ∀ (n : Int) (ns : List Int), (∀ m ∈ ns, m ≠ 0) →
      applyPrim .div (.int n :: ns.map Value.int) =
        .ok (.int (ns.foldl Int.fdiv n)) := by
  intro n ns h
  have e1 : applyPrim .div (.int n :: ns.map Value.int)
      = List.foldlM pyDiv (Value.int n) (ns.map Value.int) := rfl
  rw [e1]
  exact foldlM_pyDiv n ns h

/-- C7 witness: `(/ 7 2)` at the primitive level - `applyPrim .div` on
`[7, 2]` yields the floored quotient 3. -/
theorem C7_integer_division_witness :
    applyPrim .div [.int 7, .int 2] = .ok (.int 3) := by
  have h := C7_integer_division 7 [2] (by decide)
  exact h

/-- C3: invoking a closure builds exactly one new environment - its
bindings are the closure's parameter names zipped with the supplied
argument values, its parent is the closure's captured defining
environment `defEnv` (the caller's environment `callerEnv` appears
nowhere in the new frame) - and the call continues as the evaluation of
the closure's body in that new environment.  The concrete program shows
lexical scoping end to end: `add5`, created inside `(make 5)`, still sees
`x = 5` from its defining scope when invoked from the global scope, even
though the global scope binds `x = 100` at call time (dynamic scoping
would give 101; the result is 6). -/
theorem C3_closure_invocation_lexical :
    (∀ (fuel : Nat) (f : String) (argExps : List Exp) (callerEnv : Nat)
        (store store1 store2 : Store) (params body : Exp) (defEnv : Nat)
        (args : List Value) (names : List String),
      f ∉ (["def", "define", "if", "fn", "lambda"] : List String) →
      evaluate fuel (.sym f) callerEnv store =
        some (.ok (.closure params body defEnv, store1)) →
      evalArgsWith (evaluate fuel) argExps callerEnv store1 =
        some (.ok (args, store2)) →
      extractParams params = .ok names →
      evaluate (fuel + 1) (.list (.sym f :: argExps)) callerEnv store =
        evaluate fuel body store2.length
          (store2 ++ [⟨dictOfPairs (names.zip args), some defEnv⟩])) ∧
    runProgram 30 ["(def make (fn (x) (fn (y) (+ x y))))",
      "(def add5 (make 5))", "(def x 100)", "(add5 1)"] =
      some (.ok (.int 6)) := by
  refine ⟨?_, rfl⟩
  intro fuel f argExps callerEnv store store1 store2 params body defEnv
    args names hf h1 h2 h3
  simp only [List.mem_cons, List.not_mem_nil, or_false, not_or] at hf
  obtain ⟨hf1, hf2, hf3, hf4, hf5⟩ := hf
  have e1 : evaluate (fuel + 1) (.list (.sym f :: argExps)) callerEnv store
      = (if f = "def" ∨ f = "define" then
           evalDefine (evaluate fuel) argExps callerEnv store
         else if f = "if" then evalIf (evaluate fuel) argExps callerEnv store
         else if f = "fn" ∨ f = "lambda" then evalFn argExps callerEnv store
         else evalApply (evaluate fuel) (.sym f) argExps callerEnv store) :=
    rfl
  rw [e1, if_neg (by exact not_or.mpr ⟨hf1, hf2⟩), if_neg hf3,
    if_neg (by exact not_or.mpr ⟨hf4, hf5⟩)]
  have e2 : evalApply (evaluate fuel) (.sym f) argExps callerEnv store
      = resBind (evaluate fuel (.sym f) callerEnv store) fun fs =>
          resBind (evalArgsWith (evaluate fuel) argExps callerEnv fs.2)
            fun as => applyCallable (evaluate fuel) fs.1 as.1 as.2 := rfl
  rw [e2, h1, resBind_ok]
  show resBind (evalArgsWith (evaluate fuel) argExps callerEnv store1)
      (fun as =>
        applyCallable (evaluate fuel) (.closure params body defEnv)
          as.1 as.2) = _
  rw [h2, resBind_ok]
  show procCallWith (evaluate fuel) params body defEnv args store2 = _
  have e3 : procCallWith (evaluate fuel) params body defEnv args store2
      = (match extractParams params with
         | .error e => some (.error e)
         | .ok names =>
           evaluate fuel body store2.length
             (store2 ++ [⟨dictOfPairs (names.zip args), some defEnv⟩])) := rfl
  rw [e3, h3]

/-- Frames at indices other than the mutated one are untouched by
`set_var`. -/
theorem setVar_get_ne (store : Store) (e : Nat) (name : String) (v : Value)
    (j : Nat) (hj : j ≠ e) :
    (setVar store e name v)[j]? = store[j]? := by
  unfold setVar
  cases h : store[e]? with
  | none => rfl
  | some fr =>
    exact List.getElem?_set_ne (Ne.symm hj)

/-- The mutated frame keeps its parent and gets its bindings updated by
`frameSet`. -/
theorem setVar_get_self (store : Store) (e : Nat) (name : String) (v : Value)
    (fr : Frame) (h : store[e]? = some fr) :
    (setVar store e name v)[e]? =
      some ⟨frameSet fr.bindings name v, fr.parent⟩ := by
  unfold setVar
  rw [h]
  have hlt : e < store.length := (List.getElem?_eq_some.mp h).1
  exact List.getElem?_set_self hlt

/-- `frameSet` makes the binding visible in the frame: Python dict
assignment followed by membership/subscript. -/
theorem frameGet_frameSet (b : List (String × Value)) (name : String)
    (v : Value) : frameGet (frameSet b name v) name = some v := by
  induction b with
  | nil => simp [frameSet, frameGet]
  | cons kv rest ih =>
    obtain ⟨k, w⟩ := kv
    by_cases h : k = name
    · simp [frameSet, frameGet, h]
    · simp [frameSet, frameGet, h, ih]

/-- After `set_var` on environment `e`, looking the name up from `e`
itself yields the new value. -/
theorem lookup_setVar_self (fuel : Nat) (store : Store) (e : Nat)
    (name : String) (v : Value) (fr : Frame) (h : store[e]? = some fr) :
    lookup (fuel + 1) (setVar store e name v) e name = some (.ok v) := by
  have hself := setVar_get_self store e name v fr h
  simp only [lookup, hself, frameGet_frameSet]

/-- `lookup` only consults environments whose indices are in `chainIds`;
mutating any environment outside that chain leaves the lookup unchanged. -/
theorem lookup_setVar_not_in_chain :
    ∀ (fuel : Nat) (store : Store) (e : Nat) (name : String) (v : Value)
      (j : Nat) (n : String), e ∉ chainIds fuel store j →
      lookup fuel (setVar store e name v) j n = lookup fuel store j n := by
  intro fuel
  induction fuel with
  | zero => intro store e name v j n _; rfl
  | succ fuel ih =>
    intro store e name v j n h
    have hne : e ≠ j := by
      simp only [chainIds, List.mem_cons, not_or] at h
      exact h.1
    have hget : (setVar store e name v)[j]? = store[j]? :=
      setVar_get_ne store e name v j (Ne.symm hne)
    cases hval : store[j]? with
    | none => simp only [lookup, hget, hval]
    | some fr =>
      cases hfg : frameGet fr.bindings n with
      | some w => simp only [lookup, hget, hval, hfg]
      | none =>
        cases hp : fr.parent with
        | none => simp only [lookup, hget, hval, hfg, hp]
        | some p =>
          have htail : e ∉ chainIds fuel store p := by
            simp only [chainIds, hval, hp, List.mem_cons, not_or] at h
            exact h.2
          simp only [lookup, hget, hval, hfg, hp]
          exact ih store e name v p n htail

/-- C5: `define`/`set_var` on the environment at index `e` changes only
that environment's frame - the store keeps its length, every other index
is untouched, the mutated frame keeps its parent and differs only by the
`frameSet` insert-or-overwrite (so the new binding is found by a local
lookup), and every lookup whose environment chain does not pass through
`e` (in particular, any lookup from an ancestor) returns exactly what it
returned before the `define`. -/
theorem C5_define_local_only :
    ∀ (store : Store) (e : Nat) (name : String) (v : Value) (fr : Frame),
      store[e]? = some fr →
      (setVar store e name v).length = store.length ∧
      (∀ j, j ≠ e → (setVar store e name v)[j]? = store[j]?) ∧
      (setVar store e name v)[e]? =
        some ⟨frameSet fr.bindings name v, fr.parent⟩ ∧
      (∀ fuel, lookup (fuel + 1) (setVar store e name v) e name =
        some (.ok v)) ∧
      (∀ fuel j n, e ∉ chainIds fuel store j →
        lookup fuel (setVar store e name v) j n = lookup fuel store j n) := by
  intro store e name v fr h
  refine ⟨?_, ?_, setVar_get_self store e name v fr h,
    fun fuel => lookup_setVar_self fuel store e name v fr h,
    fun fuel j n hj => lookup_setVar_not_in_chain fuel store e name v j n hj⟩
  · unfold setVar
    rw [h, List.length_set]
  · intro j hj
    exact setVar_get_ne store e name v j hj

/-- C5 witness: in a two-environment store (child 1 with parent 0, where
the parent binds `x` to 1), defining `x` as 2 in the child leaves a
lookup of `x` started at the parent unchanged. -/
theorem C5_define_local_only_witness :
    lookup 2 (setVar [⟨[("x", .int 1)], Option.none⟩, ⟨[], some 0⟩]
        1 "x" (.int 2)) 0 "x" =
      lookup 2 [⟨[("x", .int 1)], Option.none⟩, ⟨[], some 0⟩] 0 "x" :=
  (C5_define_local_only
    [⟨[("x", .int 1)], Option.none⟩, ⟨[], some 0⟩] 1 "x" (.int 2)
    ⟨[], some 0⟩ rfl).2.2.2.2 2 0 "x" (by decide)

/-- C6: if a name is bound in no frame of the chain from `envId` up to a
parentless root (`unboundToRoot` checks the local frame first, then each
parent in turn), then `lookup` fails with the undefined-variable error -
it never returns a value. -/
theorem C6_lookup_unbound_fails :
    ∀ (fuel : Nat) (store : Store) (envId : Nat) (name : String),
      unboundToRoot fuel store envId name = true →
      lookup fuel store envId name =
        some (.error (.undefinedVariable name)) := by
  intro fuel
  induction fuel with
  | zero => intro store envId name h; simp [unboundToRoot] at h
  | succ fuel ih =>
    intro store envId name h
    cases hval : store[envId]? with
    | none => simp [unboundToRoot, hval] at h
    | some fr =>
      cases hp : fr.parent with
      | none =>
        simp only [unboundToRoot, hval, hp, Bool.and_eq_true] at h
        have hfg : frameGet fr.bindings name = Option.none :=
          Option.isNone_iff_eq_none.mp h.1
        simp only [lookup, hval, hfg, hp]
      | some p =>
        simp only [unboundToRoot, hval, hp, Bool.and_eq_true] at h
        have hfg : frameGet fr.bindings name = Option.none :=
          Option.isNone_iff_eq_none.mp h.1
        simp only [lookup, hval, hfg, hp]
        exact ih store p name h.2

/-- C6 witness: `nope` is bound nowhere in the global environment, and
looking it up fails with the undefined-variable error. -/
theorem C6_lookup_unbound_fails_witness :
    lookup 1 init_default_environment 0 "nope" =
      some (.error (.undefinedVariable "nope")) :=
  C6_lookup_unbound_fails 1 init_default_environment 0 "nope" (by rfl)

/-- The parser examines only the tokens it consumes: a successful parse
consumed a non-empty token run `pre`, and re-running on `pre` followed by
ANY continuation parses the same tree and leaves the continuation
untouched. -/
theorem parseF_extend :
    ∀ (fuel : Nat) (mode : PMode) (toks : List String) (e : Exp)
      (rest : List String),
      parseF fuel mode toks = some (.ok (e, rest)) →
      ∃ pre, pre ≠ [] ∧ toks = pre ++ rest ∧
        ∀ extra, parseF fuel mode (pre ++ extra) = some (.ok (e, extra)) := by
  intro fuel
  induction fuel with
  | zero => intro mode toks e rest h; simp [parseF] at h
  | succ fuel ih =>
    intro mode toks e rest h
    cases mode with
    | one =>
      cases toks with
      | nil => simp [parseF] at h
      | cons t ts =>
        by_cases ht : t = "("
        · subst ht
          rw [show parseF (fuel + 1) .one ("(" :: ts)
              = parseF fuel (.lst []) ts from by simp [parseF]] at h
          obtain ⟨pre, hne, heq, hext⟩ := ih (.lst []) ts e rest h
          refine ⟨"(" :: pre, by simp, by simp [heq], ?_⟩
          intro extra
          rw [List.cons_append]
          rw [show parseF (fuel + 1) .one ("(" :: (pre ++ extra))
              = parseF fuel (.lst []) (pre ++ extra) from by simp [parseF]]
          exact hext extra
        · rw [show parseF (fuel + 1) .one (t :: ts)
              = some (.ok (typed t, ts)) from by simp [parseF, ht]] at h
          obtain ⟨he, hr⟩ : typed t = e ∧ ts = rest := by simpa using h
          refine ⟨[t], by simp, by simp [hr], ?_⟩
          intro extra
          rw [show ([t] : List String) ++ extra = t :: extra from rfl]
          rw [show parseF (fuel + 1) .one (t :: extra)
              = some (.ok (typed t, extra)) from by simp [parseF, ht]]
          rw [he]
    | lst acc =>
      cases toks with
      | nil => simp [parseF] at h
      | cons t ts =>
        by_cases ht : t = ")"
        · subst ht
          rw [show parseF (fuel + 1) (.lst acc) (")" :: ts)
              = some (.ok (.list acc, ts)) from by simp [parseF]] at h
          obtain ⟨he, hr⟩ : Exp.list acc = e ∧ ts = rest := by simpa using h
          refine ⟨[")"], by simp, by simp [hr], ?_⟩
          intro extra
          rw [show ([")"] : List String) ++ extra = ")" :: extra from rfl]
          rw [show parseF (fuel + 1) (.lst acc) (")" :: extra)
              = some (.ok (.list acc, extra)) from by simp [parseF]]
          rw [he]
        · rw [show parseF (fuel + 1) (.lst acc) (t :: ts)
              = resBind (parseF fuel .one (t :: ts)) (fun pr =>
                  parseF fuel (.lst (acc ++ [pr.1])) pr.2) from by
                simp [parseF, ht]] at h
          cases hin : parseF fuel .one (t :: ts) with
          | none => rw [hin] at h; simp [resBind] at h
          | some r =>
            cases r with
            | error err => rw [hin] at h; simp [resBind] at h
            | ok pr =>
              obtain ⟨e1, rest1⟩ := pr
              rw [hin, resBind_ok] at h
              obtain ⟨pre1, hne1, heq1, hext1⟩ := ih .one (t :: ts) e1 rest1 hin
              obtain ⟨pre2, hne2, heq2, hext2⟩ :=
                ih (.lst (acc ++ [e1])) rest1 e rest h
              obtain ⟨pre1tail, hpre1⟩ : ∃ l, pre1 = t :: l := by
                cases pre1 with
                | nil => exact absurd rfl hne1
                | cons a l =>
                  have h0 := heq1
                  rw [List.cons_append] at h0
                  injection h0 with h0a h0b
                  exact ⟨l, by rw [← h0a]⟩
              refine ⟨pre1 ++ pre2, by simp [hpre1], ?_, ?_⟩
              · rw [heq1, heq2, List.append_assoc]
              · intro extra
                rw [hpre1]
                simp only [List.cons_append, List.append_assoc]
                rw [show parseF (fuel + 1) (.lst acc)
                    (t :: (pre1tail ++ (pre2 ++ extra)))
                    = resBind (parseF fuel .one
                        (t :: (pre1tail ++ (pre2 ++ extra)))) (fun pr =>
                        parseF fuel (.lst (acc ++ [pr.1])) pr.2) from by
                      simp [parseF, ht]]
                have hx : parseF fuel .one (t :: (pre1tail ++ (pre2 ++ extra)))
                    = some (.ok (e1, pre2 ++ extra)) := by
                  have h1 := hext1 (pre2 ++ extra)
                  rwa [hpre1, List.cons_append] at h1
                rw [hx, resBind_ok]
                exact hext2 extra

/-- C10: `parse` consumes only the first complete expression and silently
ignores trailing tokens - whenever a token run `pre` parses completely to
the tree `e`, the input `pre ++ extra` parses to the same `e` with
`extra` left unread and no error; concretely, `parse("1 2")` is the
integer 1 and `parse("-5")` (tokenized as the symbol `-` followed by `5`)
is the symbol `-`. -/
theorem C10_parse_ignores_trailing :
    (∀ (fuel : Nat) (pre extra : List String) (e : Exp),
      parseF fuel .one pre = some (.ok (e, [])) →
      parseF fuel .one (pre ++ extra) = some (.ok (e, extra))) ∧
    parse_expression "1 2" = some (.ok (.int 1)) ∧
    parse_expression "-5" = some (.ok (.sym "-")) := by
  refine ⟨?_, rfl, rfl⟩
  intro fuel pre extra e h
  obtain ⟨p, hne, heq, hext⟩ := parseF_extend fuel .one pre e [] h
  rw [List.append_nil] at heq
  rw [heq]
  exact hext extra

/-- C10 witness: the token list `["1"]` parses completely to the integer
1, and with the trailing token `"2"` appended the parse returns the same
tree, leaving `["2"]` unconsumed. -/
theorem C10_parse_ignores_trailing_witness :
    parseF 2 .one ["1", "2"] = some (.ok (.int 1, ["2"])) :=
  C10_parse_ignores_trailing.1 2 ["1"] ["2"] (.int 1) rfl

/-- C3 witness: calling the closure bound to `g` (identity with
parameter `x`, captured environment 0) on the argument 7 from
environment 0 continues as evaluating its body in exactly one new
environment binding `x` to 7 with parent 0. -/
theorem C3_closure_invocation_lexical_witness :
    evaluate 4 (.list [.sym "g", .int 7]) 0
        [⟨[("g", .closure (.list [.sym "x"]) (.sym "x") 0)], Option.none⟩] =
      evaluate 3 (.sym "x") 1
        ([⟨[("g", .closure (.list [.sym "x"]) (.sym "x") 0)], Option.none⟩] ++
          [⟨dictOfPairs (["x"].zip [.int 7]), some 0⟩]) := by
  exact C3_closure_invocation_lexical.1 3 "g" [.int 7] 0
    [⟨[("g", .closure (.list [.sym "x"]) (.sym "x") 0)], Option.none⟩]
    [⟨[("g", .closure (.list [.sym "x"]) (.sym "x") 0)], Option.none⟩]
    [⟨[("g", .closure (.list [.sym "x"]) (.sym "x") 0)], Option.none⟩]
    (.list [.sym "x"]) (.sym "x") 0 [.int 7] ["x"]
    (by decide) rfl rfl rfl
